import Mathlib

/-!
Shallow embedding of the rag-mcp chat package (src/chat) and proofs about it.

The embedding follows the Python sources:
  * `chat_session.py`  — `ChatSession` and its append operations;
  * `chat_manager.py`  — `_generate_response_with_tools`, `_handle_tool_use`,
    `_extract_text_content`;
  * `mcp_client.py`    — `call_tool`, `extract_text_content`;
  * `retrieve.py`      — `clear_knowledge_base_chunks`, `write_tools_to_knowledge_base`,
    `wait_for_ingestion_job`, `query_semantic`;
  * `knowledge_base.py` — `queryall`.

External collaborators (the hosted LLM, the MCP tool host, S3, the Bedrock
ingestion/retrieval service, Python's `json` module) are modelled as explicit
environment parameters.  Machine behaviour that the sources only exercise on
small data (S3 listings under 1000 keys) is modelled at that scale.
-/

set_option autoImplicit false

namespace RagMcp

/-- A Python value, as far as the chat package inspects one: strings, numbers,
booleans, `None`, lists and string-keyed dicts.  This is the type of tool-call
arguments, tool results and JSON-decoded payloads. -/
inductive PyVal where
  | str : String → PyVal
  | int : Int → PyVal
  | bool : Bool → PyVal
  | none : PyVal
  | list : List PyVal → PyVal
  | dict : List (String × PyVal) → PyVal
deriving Repr

mutual

private def PyVal.beqAux : PyVal → PyVal → Bool
  | .str a, .str b => a == b
  | .int a, .int b => a == b
  | .bool a, .bool b => a == b
  | .none, .none => true
  | .list a, .list b => PyVal.beqList a b
  | .dict a, .dict b => PyVal.beqDict a b
  | _, _ => false

private def PyVal.beqList : List PyVal → List PyVal → Bool
  | [], [] => true
  | a :: as, b :: bs => PyVal.beqAux a b && PyVal.beqList as bs
  | _, _ => false

private def PyVal.beqDict : List (String × PyVal) → List (String × PyVal) → Bool
  | [], [] => true
  | (ka, va) :: as, (kb, vb) :: bs => ka == kb && PyVal.beqAux va vb && PyVal.beqDict as bs
  | _, _ => false

end

instance : BEq PyVal := ⟨PyVal.beqAux⟩

mutual

private def PyVal.beqAux_refl : ∀ v : PyVal, PyVal.beqAux v v = true
  | .str a => by simp [PyVal.beqAux]
  | .int a => by simp [PyVal.beqAux]
  | .bool a => by simp [PyVal.beqAux]
  | .none => by simp [PyVal.beqAux]
  | .list a => by simp [PyVal.beqAux]; exact PyVal.beqList_refl a
  | .dict a => by simp [PyVal.beqAux]; exact PyVal.beqDict_refl a

private def PyVal.beqList_refl : ∀ l : List PyVal, PyVal.beqList l l = true
  | [] => by simp [PyVal.beqList]
  | a :: as => by
      simp [PyVal.beqList]
      exact ⟨PyVal.beqAux_refl a, PyVal.beqList_refl as⟩

private def PyVal.beqDict_refl : ∀ l : List (String × PyVal), PyVal.beqDict l l = true
  | [] => by simp [PyVal.beqDict]
  | (k, v) :: as => by
      simp [PyVal.beqDict]
      exact ⟨PyVal.beqAux_refl v, PyVal.beqDict_refl as⟩

end

mutual

private def PyVal.eq_of_beqAux : ∀ a b : PyVal, PyVal.beqAux a b = true → a = b
  | .str a, .str b => by simp [PyVal.beqAux]
  | .str _, .int _ => by simp [PyVal.beqAux]
  | .str _, .bool _ => by simp [PyVal.beqAux]
  | .str _, .none => by simp [PyVal.beqAux]
  | .str _, .list _ => by simp [PyVal.beqAux]
  | .str _, .dict _ => by simp [PyVal.beqAux]
  | .int _, .str _ => by simp [PyVal.beqAux]
  | .int a, .int b => by simp [PyVal.beqAux]
  | .int _, .bool _ => by simp [PyVal.beqAux]
  | .int _, .none => by simp [PyVal.beqAux]
  | .int _, .list _ => by simp [PyVal.beqAux]
  | .int _, .dict _ => by simp [PyVal.beqAux]
  | .bool _, .str _ => by simp [PyVal.beqAux]
  | .bool _, .int _ => by simp [PyVal.beqAux]
  | .bool a, .bool b => by simp [PyVal.beqAux]
  | .bool _, .none => by simp [PyVal.beqAux]
  | .bool _, .list _ => by simp [PyVal.beqAux]
  | .bool _, .dict _ => by simp [PyVal.beqAux]
  | .none, .str _ => by simp [PyVal.beqAux]
  | .none, .int _ => by simp [PyVal.beqAux]
  | .none, .bool _ => by simp [PyVal.beqAux]
  | .none, .none => by intro _; rfl
  | .none, .list _ => by simp [PyVal.beqAux]
  | .none, .dict _ => by simp [PyVal.beqAux]
  | .list _, .str _ => by simp [PyVal.beqAux]
  | .list _, .int _ => by simp [PyVal.beqAux]
  | .list _, .bool _ => by simp [PyVal.beqAux]
  | .list _, .none => by simp [PyVal.beqAux]
  | .list a, .list b => by
      simp [PyVal.beqAux]
      intro h
      exact PyVal.eq_of_beqList a b h
  | .list _, .dict _ => by simp [PyVal.beqAux]
  | .dict _, .str _ => by simp [PyVal.beqAux]
  | .dict _, .int _ => by simp [PyVal.beqAux]
  | .dict _, .bool _ => by simp [PyVal.beqAux]
  | .dict _, .none => by simp [PyVal.beqAux]
  | .dict _, .list _ => by simp [PyVal.beqAux]
  | .dict a, .dict b => by
      simp [PyVal.beqAux]
      intro h
      exact PyVal.eq_of_beqDict a b h

private def PyVal.eq_of_beqList : ∀ a b : List PyVal, PyVal.beqList a b = true → a = b
  | [], [] => by intro _; rfl
  | [], _ :: _ => by simp [PyVal.beqList]
  | _ :: _, [] => by simp [PyVal.beqList]
  | a :: as, b :: bs => by
      simp [PyVal.beqList]
      intro h1 h2
      exact ⟨PyVal.eq_of_beqAux a b h1, PyVal.eq_of_beqList as bs h2⟩

private def PyVal.eq_of_beqDict :
    ∀ a b : List (String × PyVal), PyVal.beqDict a b = true → a = b
  | [], [] => by intro _; rfl
  | [], _ :: _ => by simp [PyVal.beqDict]
  | _ :: _, [] => by simp [PyVal.beqDict]
  | (ka, va) :: as, (kb, vb) :: bs => by
      simp [PyVal.beqDict]
      intro h1 h2 h3
      exact ⟨⟨h1, PyVal.eq_of_beqAux va vb h2⟩, PyVal.eq_of_beqDict as bs h3⟩

end

instance : DecidableEq PyVal := fun a b =>
  if h : PyVal.beqAux a b = true then
    .isTrue (PyVal.eq_of_beqAux a b h)
  else
    .isFalse (fun he => h (he ▸ PyVal.beqAux_refl a))

/-- Python truthiness (`bool(v)`) for the values of `PyVal`; used to model
`if not tools_data["tools"]` and `tool_config or self._tool_config`. -/
def pyTruthy : PyVal → Bool
  | .str s => !(s == "")
  | .int n => !(n == 0)
  | .bool b => b
  | .none => false
  | .list l => !l.isEmpty
  | .dict l => !l.isEmpty

mutual

/-- Python `repr(v)` (as `str()` renders non-string values). -/
def pyRepr : PyVal → String
  | .str s => "\x27" ++ s ++ "\x27"
  | .int n => toString n
  | .bool b => if b then "True" else "False"
  | .none => "None"
  | .list l => "[" ++ pyReprList l ++ "]"
  | .dict l => "\x7b" ++ pyReprDict l ++ "\x7d"

/-- Comma-separated reprs of the elements of a Python list. -/
def pyReprList : List PyVal → String
  | [] => ""
  | [v] => pyRepr v
  | v :: rest => pyRepr v ++ ", " ++ pyReprList rest

/-- Comma-separated `key: value` reprs of a Python dict. -/
def pyReprDict : List (String × PyVal) → String
  | [] => ""
  | [(k, v)] => "\x27" ++ k ++ "\x27: " ++ pyRepr v
  | (k, v) :: rest => "\x27" ++ k ++ "\x27: " ++ pyRepr v ++ ", " ++ pyReprDict rest

end

/-- Python `str(v)`: the string itself for strings, `repr` otherwise. -/
def pyStr : PyVal → String
  | .str s => s
  | v => pyRepr v

/-! ## Conversation session (`chat_session.py`) -/

/-- A `toolUse` content block as the orchestrator reads it from a Bedrock reply:
`tool["toolUseId"]`, `tool["name"]`, `tool["input"]`. -/
structure ToolUseBlock where
  toolUseId : String
  name : String
  input : PyVal
deriving Repr, DecidableEq

/-- One element of a `toolResult`'s `content` list: either `{"text": ...}` or
`{"json": ...}`. -/
inductive ToolResultContent where
  | text : String → ToolResultContent
  | json : PyVal → ToolResultContent
deriving Repr, DecidableEq

/-- A `toolResult` content block (`chat_session.py`, `add_tool_result`). -/
structure ToolResultBlock where
  toolUseId : String
  content : List ToolResultContent
  status : String
deriving Repr, DecidableEq

/-- A content block of a Bedrock Converse message: exactly one of the keys
`"text"`, `"toolUse"`, `"toolResult"`. -/
inductive ContentBlock where
  | text : String → ContentBlock
  | toolUse : ToolUseBlock → ContentBlock
  | toolResult : ToolResultBlock → ContentBlock
deriving Repr, DecidableEq

/-- A Bedrock Converse message: `{"role": ..., "content": [...]}`. -/
structure Message where
  role : String
  content : List ContentBlock
deriving Repr, DecidableEq

/-- `ChatSession.__init__`: `self.messages = []`, `self.user_inputs = []`. -/
structure ChatSession where
  messages : List Message
  user_inputs : List String
deriving Repr, DecidableEq

/-- `ChatSession()` freshly constructed. -/
def ChatSession.empty : ChatSession := ⟨[], []⟩

/-- `ChatSession.add_user_message`. -/
def ChatSession.add_user_message (s : ChatSession) (content : String) : ChatSession :=
  { messages := s.messages ++ [{ role := "user", content := [.text content] }],
    user_inputs := s.user_inputs ++ ["user: " ++ content] }

/-- `ChatSession.add_assistant_message`. -/
def ChatSession.add_assistant_message (s : ChatSession) (content : String) : ChatSession :=
  { s with messages := s.messages ++ [{ role := "assistant", content := [.text content] }] }

/-- `ChatSession.add_tool_use`. -/
def ChatSession.add_tool_use (s : ChatSession) (tu : ToolUseBlock) : ChatSession :=
  { s with messages := s.messages ++ [{ role := "assistant", content := [.toolUse tu] }] }

/-- The `tool_result_content` computed by `ChatSession.add_tool_result`.  In the
source the `status == "success" and isinstance(content, str)` case tries
`json.loads(content)` but both the success branch of the `try` and its
`except JSONDecodeError` branch produce `[{"text": content}]`, so no JSON
parse is needed to model it. -/
def toolResultContentOf (content : PyVal) (status : String) : List ToolResultContent :=
  match status == "success", content with
  | true, .str s => [.text s]
  | true, .dict _ => [.json content]
  | true, .list _ => [.json content]
  | _, _ => [.text (pyStr content)]

/-- `ChatSession.add_tool_result`. -/
def ChatSession.add_tool_result (s : ChatSession) (tool_use_id : String) (content : PyVal)
    (status : String) : ChatSession :=
  { s with
    messages := s.messages ++
      [{ role := "user",
         content := [.toolResult
           { toolUseId := tool_use_id,
             content := toolResultContentOf content status,
             status := status }] }] }

/-- `ChatSession.get_messages`. -/
def ChatSession.get_messages (s : ChatSession) : List Message := s.messages

/-- `ChatSession.get_conversation_context`. -/
def ChatSession.get_conversation_context (s : ChatSession) : String :=
  String.intercalate "\n" s.user_inputs

/-- `ChatSession.clear`. -/
def ChatSession.clear (_ : ChatSession) : ChatSession := ⟨[], []⟩

/-- One append operation on a `ChatSession` (the four `add_*` methods). -/
inductive SessionOp where
  | user : String → SessionOp
  | assistant : String → SessionOp
  | tuse : ToolUseBlock → SessionOp
  | tresult : String → PyVal → String → SessionOp
deriving Repr

/-- Apply one append operation. -/
def applySessionOp (s : ChatSession) : SessionOp → ChatSession
  | .user c => s.add_user_message c
  | .assistant c => s.add_assistant_message c
  | .tuse tu => s.add_tool_use tu
  | .tresult id c st => s.add_tool_result id c st

/-- Apply a sequence of append operations in order. -/
def applySessionOps (s : ChatSession) (ops : List SessionOp) : ChatSession :=
  ops.foldl applySessionOp s

/-- A message is a single-block user or assistant message. -/
def goodMessage (m : Message) : Prop :=
  (m.role = "user" ∨ m.role = "assistant") ∧ m.content.length = 1

/-! ## Tool-execution client (`mcp_client.py`) -/

/-- One element of an MCP tool result's `content` list; `call_tool` only
distinguishes `TextContent` from everything else. -/
inductive MCPContent where
  | text : String → MCPContent
  | other : MCPContent
deriving Repr, DecidableEq

/-- The structured result the MCP host returns from a tool call. -/
structure MCPCallResult where
  isError : Bool
  content : List MCPContent
deriving Repr, DecidableEq

/-- How the host session behaves on one `session.call_tool(...)` invocation:
either the transport raises, or a structured result comes back. -/
inductive HostOutcome where
  | raises : String → HostOutcome
  | returns : MCPCallResult → HostOutcome
deriving Repr, DecidableEq

/-- `MCPClient.call_tool`.  The `result.isError` branch raises
`MCPToolError(f"Tool {name} execution failed")`, which the enclosing
`except Exception` immediately re-wraps; a transport exception is wrapped the
same way.  The session-not-initialized raise happens before the `try`. -/
def call_tool (sessionInitialized : Bool) (tool_name : String) (host : HostOutcome) :
    Except String MCPCallResult :=
  if !sessionInitialized then
    .error "MCP session not initialized"
  else
    match host with
    | .raises e => .error ("Failed to call tool " ++ tool_name ++ ": " ++ e)
    | .returns r =>
      if r.isError then
        .error ("Failed to call tool " ++ tool_name ++ ": " ++
          ("Tool " ++ tool_name ++ " execution failed"))
      else
        .ok r

/-- `MCPClient.extract_text_content`: the first `TextContent` block's text. -/
def mcpExtractText (r : MCPCallResult) : Option String :=
  r.content.findSome? fun c =>
    match c with
    | .text s => some s
    | .other => Option.none

/-- True when the host reports an error for this tool call (transport raise or
`is_error=true`), i.e. exactly when `call_tool` raises on a live session. -/
def hostErrs : HostOutcome → Bool
  | .raises _ => true
  | .returns r => r.isError

/-! ## Conversation orchestrator (`chat_manager.py`) -/

/-- Token usage as `get_usage_info` extracts it from a Bedrock response. -/
structure Usage where
  input_tokens : Nat
  output_tokens : Nat
  total_tokens : Nat
deriving Repr, DecidableEq

/-- `total_usage[key] += current_usage[key]` for the three keys. -/
def addUsage (a b : Usage) : Usage :=
  ⟨a.input_tokens + b.input_tokens, a.output_tokens + b.output_tokens,
    a.total_tokens + b.total_tokens⟩

/-- One Bedrock Converse reply: `output.message`, `stopReason`, `usage`. -/
structure LLMResponse where
  outputMessage : Message
  stopReason : String
  usage : Usage

/-- `ChatManager._extract_text_content`: join all `"text"` blocks; `None` when
there are none. -/
def extractTextContent (m : Message) : Option String :=
  let text_parts := m.content.filterMap fun c =>
    match c with
    | .text s => some s
    | _ => Option.none
  if text_parts.isEmpty then Option.none else some (String.join text_parts)

/-- `if response_text: self.session.add_assistant_message(response_text)` —
`None` and the empty string are both falsy. -/
def appendResponseText (s : ChatSession) : Option String → ChatSession
  | some t => if t == "" then s else s.add_assistant_message t
  | Option.none => s

/-- The external collaborators of one `_generate_response_with_tools` run:
the hosted LLM's reply to the k-th Converse call, the MCP host's outcome for
the i-th tool request of the k-th reply, and Python's `json.loads`
(`Option.none` models `JSONDecodeError`). -/
structure OrchestratorEnv where
  llm : Nat → LLMResponse
  host : Nat → Nat → HostOutcome
  jsonLoads : String → Option PyVal

/-- The request data of one `bedrock_client.converse` call: the messages
snapshot and the `toolConfig` field attached to the request (`converse` only
attaches `tool_config` when it is truthy). -/
structure ConverseCall where
  messages : List Message
  toolConfig : Option PyVal

/-- The dict returned by `_generate_response_with_tools`, plus the final
session and the log of Converse calls made (side effects made explicit).
`max_rounds_reached` is `Option.none` when the key is absent from the
returned dict (the in-loop return) and `some true` on the final-call path. -/
structure GenResult where
  text : Option String
  usage : Usage
  stop_reason : String
  tool_rounds : Nat
  max_rounds_reached : Option Bool
  session : ChatSession
  calls : List ConverseCall

/-- Process one entry of `tool_requests` in `_handle_tool_use`: append the
tool use, run `call_tool`, and append the matching tool result. -/
def processToolRequest (jsonLoads : String → Option PyVal) (outcome : HostOutcome)
    (t : ToolUseBlock) (s : ChatSession) : ChatSession :=
  let s := s.add_tool_use t
  match call_tool true t.name outcome with
  | .ok r =>
    match mcpExtractText r with
    | some text_content =>
      match jsonLoads text_content with
      | some processed_result => s.add_tool_result t.toolUseId processed_result "success"
      | Option.none => s.add_tool_result t.toolUseId (.str text_content) "success"
    | Option.none =>
      s.add_tool_result t.toolUseId
        (.str ("Tool " ++ t.name ++ " didn\x27t return text content")) "error"
  | .error e =>
    s.add_tool_result t.toolUseId (.str ("Tool " ++ t.name ++ " failed: " ++ e)) "error"

/-- The `tool_requests` list: content blocks of the reply that carry a
`"toolUse"` key. -/
def toolRequestsOf (m : Message) : List ToolUseBlock :=
  m.content.filterMap fun c =>
    match c with
    | .toolUse t => some t
    | _ => Option.none

/-- The `for tool_request in tool_requests` loop of `_handle_tool_use`,
with `i` the index of the next request (used to look up its host outcome). -/
def handleToolUseAux (jsonLoads : String → Option PyVal) (host : Nat → HostOutcome) :
    Nat → List ToolUseBlock → ChatSession → ChatSession
  | _, [], s => s
  | i, t :: rest, s =>
    handleToolUseAux jsonLoads host (i + 1) rest (processToolRequest jsonLoads (host i) t s)

/-- `ChatManager._handle_tool_use`. -/
def handleToolUse (jsonLoads : String → Option PyVal) (host : Nat → HostOutcome)
    (output_message : Message) (s : ChatSession) : ChatSession :=
  handleToolUseAux jsonLoads host 0 (toolRequestsOf output_message) s

/-- `a or b` on optional dicts (`tool_config or self._tool_config`). -/
def pyOr (a b : Option PyVal) : Option PyVal :=
  match a with
  | some v => if pyTruthy v then some v else b
  | Option.none => b

/-- The `toolConfig` field `BedrockClient.converse` attaches to the request:
present only when the passed `tool_config` is truthy. -/
def attachedToolConfig (cfg : Option PyVal) : Option PyVal :=
  match cfg with
  | some v => if pyTruthy v then some v else Option.none
  | Option.none => Option.none

/-- The `while tool_rounds < max_tool_rounds` loop of
`_generate_response_with_tools`, including the final Converse call after the
loop.  `k` counts the Converse calls already made (so `env.llm k` is the next
reply); `effCfg` is `tool_config or self._tool_config`, evaluated identically
at every call site in the source. -/
def genLoop (env : OrchestratorEnv) (effCfg : Option PyVal) (max_tool_rounds : Nat)
    (k tool_rounds : Nat) (total_usage : Usage) (session : ChatSession)
    (calls : List ConverseCall) : GenResult :=
  if tool_rounds < max_tool_rounds then
    let response := env.llm k
    let calls := calls ++ [⟨session.get_messages, attachedToolConfig effCfg⟩]
    let total_usage := addUsage total_usage response.usage
    let response_text := extractTextContent response.outputMessage
    let session := appendResponseText session response_text
    if response.stopReason == "tool_use" then
      let session := handleToolUse env.jsonLoads (env.host k) response.outputMessage session
      genLoop env effCfg max_tool_rounds (k + 1) (tool_rounds + 1) total_usage session calls
    else
      { text := response_text, usage := total_usage, stop_reason := response.stopReason,
        tool_rounds := tool_rounds, max_rounds_reached := Option.none,
        session := session, calls := calls }
  else
    let final_response := env.llm k
    let calls := calls ++ [⟨session.get_messages, attachedToolConfig effCfg⟩]
    let total_usage := addUsage total_usage final_response.usage
    let final_text := extractTextContent final_response.outputMessage
    let session := appendResponseText session final_text
    { text := final_text, usage := total_usage, stop_reason := final_response.stopReason,
      tool_rounds := tool_rounds, max_rounds_reached := some true,
      session := session, calls := calls }
termination_by max_tool_rounds - tool_rounds

/-- `ChatManager._generate_response_with_tools`, from its initial state. -/
def generateResponseWithTools (env : OrchestratorEnv) (tool_config selfToolConfig : Option PyVal)
    (max_tool_rounds : Nat) (session : ChatSession) : GenResult :=
  genLoop env (pyOr tool_config selfToolConfig) max_tool_rounds 0 0 ⟨0, 0, 0⟩ session []

/-! ## Knowledge-base tool index (`retrieve.py`, `knowledge_base.py`)

The S3 object store is modelled as an association list from key to object
body; a body is the list of JSONL records (lines) of the object, the real
file being their newline-join (`json.dumps` output contains no newline).
S3 operations are modelled as succeeding; an S3 failure aborts the whole
`write_tools_to_knowledge_base` call with a `KnowledgeBaseError` and is not
needed by any claim.  The source lists objects with a single
`list_objects_v2` call, which is exhaustive for the corpus sizes it creates
(one object per replace). -/

/-- An S3 object body: the JSONL records it holds, one per line. -/
abbrev S3Body := List String

/-- The object store: key to body. -/
abbrev S3State := List (String × S3Body)

/-- `startswith` on the character lists of two strings (`key` begins with
`pfx`); used to model the `Prefix=` scoping of `list_objects_v2`. -/
def strStarts : List Char → List Char → Bool
  | [], _ => true
  | _ :: _, [] => false
  | a :: as, b :: bs => a == b && strStarts as bs

/-- The keys of the corpus location: those starting with the configured
`s3_prefix`. -/
def keyUnder (pfx key : String) : Bool := strStarts pfx.data key.data

/-- `BedrockKnowledgeBaseTools.clear_knowledge_base_chunks`: list every object
under the corpus location and batch-delete them (a no-op success when none
exist); the deletion waiters do not change the store. -/
def clear_knowledge_base_chunks (pfx : String) (s3 : S3State) : S3State :=
  s3.filter fun kv => !(keyUnder pfx kv.1)

/-- `s3_client.upload_file`: write (or overwrite) one object. -/
def s3Put (s3 : S3State) (key : String) (body : S3Body) : S3State :=
  (s3.filter fun kv => !(kv.1 == key)) ++ [(key, body)]

/-- `BedrockKnowledgeBaseTools._create_temp_jsonl_file`: one `json.dumps`
record per tool, in order. -/
def create_temp_jsonl_records (jsonDumps : PyVal → String) (tools : List PyVal) : S3Body :=
  tools.map jsonDumps

/-- `BedrockKnowledgeBaseTools._upload_to_s3`: the key is the configured
`s3_prefix` followed by the basename of the temporary file. -/
def upload_to_s3 (pfx tempName : String) (body : S3Body) (s3 : S3State) : S3State :=
  s3Put s3 (pfx ++ tempName) body

/-- One `get_ingestion_job` call: either the call raises, or it returns a
response with `response["ingestionJob"]["status"]` and the top-level
`response.get("failureReasons")` exactly as the source reads them. -/
inductive PollOutcome where
  | raises : String → PollOutcome
  | resp : String → Option (List String) → PollOutcome
deriving Repr, DecidableEq

/-- The outcome of `wait_for_ingestion_job`: a returned status, a raised
`KnowledgeBaseError`, or a raised `TimeoutError` — distinct kinds by
construction. -/
inductive WaitOutcome where
  | ok : String → WaitOutcome
  | kbError : String → WaitOutcome
  | timeoutError : String → WaitOutcome
deriving Repr, DecidableEq

/-- A poll on which the source's loop keeps waiting: the call returned and
the status is none of `COMPLETE`, `FAILED`, `STOPPED`. -/
def pollNonTerminal : PollOutcome → Bool
  | .raises _ => false
  | .resp status _ =>
    !(status == "COMPLETE") && !(status == "FAILED") && !(status == "STOPPED")

/-- `BedrockKnowledgeBaseTools.wait_for_ingestion_job`.  Real time is
abstracted: `fuel` is the number of poll iterations the `timeout` budget
allows (about `timeout / poll_interval`), `i` indexes the polls made so far.
The timeout message carries the configured seconds in the source; the model
keeps only its fixed text. -/
def wait_for_ingestion_job (polls : Nat → PollOutcome) (ingestion_job_id : String) :
    Nat → Nat → WaitOutcome
  | 0, _ =>
    .timeoutError ("Ingestion job " ++ ingestion_job_id ++ " did not complete within the timeout")
  | fuel + 1, i =>
    match polls i with
    | .raises e => .kbError ("Failed to check ingestion job status: " ++ e)
    | .resp status reasons =>
      if status == "COMPLETE" then
        .ok status
      else if status == "FAILED" then
        .kbError ("Ingestion job " ++ ingestion_job_id ++ " failed: " ++
          pyRepr (.list ((reasons.getD ["Unknown error"]).map .str)))
      else if status == "STOPPED" then
        .ok status
      else
        wait_for_ingestion_job polls ingestion_job_id fuel (i + 1)

/-- `tools_data["tools"]` — Python dict lookup on the association list. -/
def dictGet (kvs : List (String × PyVal)) (k : String) : Option PyVal :=
  (kvs.find? fun kv => kv.1 == k).map (·.2)

/-- The `IngestionJobResult` dataclass, restricted to the fields claims use. -/
structure IngestionJobResultM where
  job_id : String
  status : String
deriving Repr, DecidableEq

/-- The exception raised by `write_tools_to_knowledge_base`: the `ValueError`
of input validation (raised before the `try` block, so never wrapped) or a
`KnowledgeBaseError` (everything raised inside the `try`, a `TimeoutError`
from the wait included, is wrapped into one by the outer `except`). -/
inductive WriteErr where
  | valueError : String → WriteErr
  | kbError : String → WriteErr
deriving Repr, DecidableEq

/-- External collaborators of one `write_tools_to_knowledge_base` call: the
basename `tempfile` picks, the job id `start_ingestion_job` returns, the
`get_ingestion_job` replies and the poll budget of the wait. -/
structure KBWriteEnv where
  tempName : String
  job_id : String
  polls : Nat → PollOutcome
  maxPolls : Nat

/-- Result of `write_tools_to_knowledge_base` with its side effects made
explicit: the returned value or exception, the final object store, and
whether `start_ingestion_job` was invoked. -/
structure WriteOutcome where
  result : Except WriteErr IngestionJobResultM
  s3 : S3State
  ingestionStarted : Bool

/-- `BedrockKnowledgeBaseTools.write_tools_to_knowledge_base`: validate,
clear, materialize the JSONL object, trigger ingestion, await it.  The
temporary file is created and removed inside the call and does not appear in
the outcome.  A non-list truthy `tools_data["tools"]` value would raise while
iterating it and is modelled as the wrapped `KnowledgeBaseError`. -/
def write_tools_to_knowledge_base (env : KBWriteEnv) (pfx : String)
    (jsonDumps : PyVal → String) (tools_data : PyVal) (s3 : S3State) : WriteOutcome :=
  match tools_data with
  | .dict kvs =>
    match dictGet kvs "tools" with
    | Option.none =>
      ⟨.error (.valueError "Invalid tools_data format: must contain \x27tools\x27 key"), s3, false⟩
    | some toolsVal =>
      if !(pyTruthy toolsVal) then
        ⟨.error (.valueError "Invalid tools_data format: \x27tools\x27 list cannot be empty"),
          s3, false⟩
      else
        match toolsVal with
        | .list tools =>
          let s3c := clear_knowledge_base_chunks pfx s3
          let body := create_temp_jsonl_records jsonDumps tools
          let s3u := upload_to_s3 pfx env.tempName body s3c
          match wait_for_ingestion_job env.polls env.job_id env.maxPolls 0 with
          | .ok status => ⟨.ok ⟨env.job_id, status⟩, s3u, true⟩
          | .kbError m =>
            ⟨.error (.kbError ("Failed to write tools to Knowledge Base: " ++ m)), s3u, true⟩
          | .timeoutError m =>
            ⟨.error (.kbError ("Failed to write tools to Knowledge Base: " ++ m)), s3u, true⟩
        | _ =>
          ⟨.error (.kbError "Failed to write tools to Knowledge Base: not iterable"),
            clear_knowledge_base_chunks pfx s3, false⟩
  | _ =>
    ⟨.error (.valueError "Invalid tools_data format: must contain \x27tools\x27 key"), s3, false⟩

/-- One retrieval hit as `query_semantic` reads it:
`result["content"]["text"]`. -/
structure RetrievalHit where
  contentText : String
deriving Repr, DecidableEq

/-- The `QueryResult` dataclass. -/
structure QueryResultM where
  tools : List PyVal
  total_results : Nat
deriving Repr, DecidableEq

/-- The `for result in response["retrievalResults"]` loop of
`query_semantic`: append each payload that `json.loads` accepts, `continue`
past each one it rejects. -/
def querySemanticLoop (jsonLoads : String → Option PyVal) :
    List RetrievalHit → List PyVal → List PyVal
  | [], results => results
  | hit :: rest, results =>
    match jsonLoads hit.contentText with
    | some content => querySemanticLoop jsonLoads rest (results ++ [content])
    | Option.none => querySemanticLoop jsonLoads rest results

/-- `BedrockKnowledgeBaseTools.query_semantic`: the `retrieve` call itself can
raise (wrapped into a `KnowledgeBaseError`); per-hit parse failures cannot. -/
def query_semantic (jsonLoads : String → Option PyVal)
    (retrieveOutcome : Except String (List RetrievalHit)) : Except String QueryResultM :=
  match retrieveOutcome with
  | .error e => .error ("Failed to query Knowledge Base: " ++ e)
  | .ok hits =>
    let results := querySemanticLoop jsonLoads hits []
    .ok ⟨results, results.length⟩

/-- Modelled from the spec (§3 Knowledge-Base Corpus): after the most recent
ingestion job reaches `complete`, the retrieval index mirrors the corpus —
one indexed record per JSONL line of the objects under the corpus
location. -/
def indexAfterCompleteIngestion (pfx : String) (s3 : S3State) : List String :=
  ((s3.filter fun kv => keyUnder pfx kv.1).map (·.2)).flatten

/-- Modelled from the spec (§6 Retrieval/ingestion service): `retrieve`
returns the indexed records most similar to the query, at most `top_k` of
them; when `top_k` is at least the corpus size every record is returned
(similarity ordering abstracted as the index order). -/
def retrieveTopK (index : List String) (top_k : Nat) : List RetrievalHit :=
  (index.take top_k).map RetrievalHit.mk

/-- `BedrockKnowledgeBase.queryall`: `query_semantic` with the broad probe
query and `max_results=100`, against the index of a completed ingestion. -/
def queryallResult (jsonLoads : String → Option PyVal) (pfx : String) (s3 : S3State) :
    Except String QueryResultM :=
  query_semantic jsonLoads (.ok (retrieveTopK (indexAfterCompleteIngestion pfx s3) 100))

/-- The tool name of a Bedrock-format descriptor:
`entry["toolSpec"]["name"]`. -/
def toolNameOf (v : PyVal) : Option String :=
  match v with
  | .dict kvs =>
    match dictGet kvs "toolSpec" with
    | some (.dict ts) =>
      match dictGet ts "name" with
      | some (.str n) => some n
      | _ => Option.none
    | _ => Option.none
  | _ => Option.none

/-- The tool names of a descriptor list, in order. -/
def namesOf (l : List PyVal) : List String := l.filterMap toolNameOf

/-- Duplicate-safe set comparison of two name lists. -/
def sameNameSet (a b : List String) : Bool :=
  (a.all fun n => b.contains n) && (b.all fun n => a.contains n)

/-! ## Derived notions used by the statements -/

/-- The spec's content-encoding condition: `status=success` and the content is
a mapping or a sequence. -/
def pyIsDictOrList : PyVal → Bool
  | .dict _ => true
  | .list _ => true
  | _ => false

/-- The tail of the `MCPToolError` message `call_tool` raises for a failing
host call (after `"Failed to call tool {name}: "`). -/
def hostErrTail (name : String) : HostOutcome → String
  | .raises e => e
  | .returns _ => "Tool " ++ name ++ " execution failed"

/-- The full `MCPToolError` message `call_tool` raises for a failing host
call — it carries the tool name. -/
def hostErrMsg (name : String) (o : HostOutcome) : String :=
  "Failed to call tool " ++ name ++ ": " ++ hostErrTail name o

/-- The `error_msg` string `_handle_tool_use` stores for a failing tool
call. -/
def toolFailedText (t : ToolUseBlock) (o : HostOutcome) : String :=
  "Tool " ++ t.name ++ " failed: " ++ hostErrMsg t.name o

/-- The Session message `_handle_tool_use` appends for a failing tool call:
a user message holding one `status="error"` tool result for that
`tool_use_id`. -/
def errorResultMessage (t : ToolUseBlock) (o : HostOutcome) : Message :=
  { role := "user",
    content := [.toolResult
      { toolUseId := t.toolUseId,
        content := [.text (toolFailedText t o)],
        status := "error" }] }

/-- The object bodies currently stored under the corpus location. -/
def bodiesUnder (pfx : String) (s3 : S3State) : List S3Body :=
  (s3.filter fun kv => keyUnder pfx kv.1).map (·.2)

/-! ## Concrete instances used by witnesses and counterexamples -/

/-- A mocked LLM that always answers `tool_use` with one tool request and a
text block, over a host whose tool calls succeed. -/
def alwaysToolUseEnv : OrchestratorEnv :=
  { llm := fun _ =>
      { outputMessage :=
          { role := "assistant",
            content := [.text "calling a tool",
              .toolUse { toolUseId := "tu-1", name := "get_weather", input := .dict [] }] },
        stopReason := "tool_use",
        usage := ⟨3, 2, 5⟩ },
    host := fun _ _ => .returns { isError := false, content := [.text "sunny"] },
    jsonLoads := fun _ => Option.none }

/-- A nonempty tool configuration (truthy, so `converse` attaches it). -/
def someToolConfig : PyVal :=
  .dict [("tools", .list [.dict [("toolSpec", .dict [("name", .str "get_weather")])]])]

/-- The tool request used by the C4 witness. -/
def c4Tool : ToolUseBlock := { toolUseId := "tu-9", name := "read_file", input := .dict [] }

/-- A mocked LLM that requests `c4Tool` every round, over a host that reports
`is_error=true` for every call. -/
def erroringHostEnv : OrchestratorEnv :=
  { llm := fun _ =>
      { outputMessage := { role := "assistant", content := [.toolUse c4Tool] },
        stopReason := "tool_use",
        usage := ⟨1, 1, 2⟩ },
    host := fun _ _ => .returns { isError := true, content := [] },
    jsonLoads := fun _ => Option.none }

/-- A Bedrock-format descriptor with the given tool name. -/
def namedTool (n : String) : PyVal :=
  .dict [("toolSpec", .dict [("name", .str n)])]

/-- 101 descriptors with pairwise distinct names (one more than the
`max_results=100` hard-coded into `queryall`). -/
def manyTools : List PyVal := (List.range 101).map fun i => namedTool ("t" ++ toString i)

/-- Two descriptors, for the round-trip witness. -/
def twoTools : List PyVal := [namedTool "alpha", namedTool "beta"]

/-- A `json.dumps` stand-in that is injective on `namedTool` descriptors. -/
def nameDumps : PyVal → String := fun v =>
  match toolNameOf v with
  | some n => n
  | Option.none => ""

/-- The matching `json.loads` stand-in: `nameLoads (nameDumps (namedTool n))`
recovers `namedTool n`. -/
def nameLoads : String → Option PyVal := fun s => some (namedTool s)

/-- A write environment whose ingestion job reports `COMPLETE` at once. -/
def completeIngestionEnv : KBWriteEnv :=
  { tempName := "tmp1a2b.jsonl",
    job_id := "job-1",
    polls := fun _ => .resp "COMPLETE" Option.none,
    maxPolls := 1 }

/-- A second write environment (different temporary file basename). -/
def completeIngestionEnv2 : KBWriteEnv :=
  { tempName := "tmp9z8y.jsonl",
    job_id := "job-2",
    polls := fun _ => .resp "COMPLETE" Option.none,
    maxPolls := 1 }

/-! # Theorems -/

/-! ## Session claims (C3, C10) -/

theorem toolResultContentOf_spec (content : PyVal) (status : String) :
    toolResultContentOf content status
      = if status = "success" ∧ pyIsDictOrList content = true then [.json content]
        else [.text (pyStr content)] := by
  rcases eq_or_ne status "success" with rfl | hne
  · cases content <;> simp [toolResultContentOf, pyIsDictOrList, pyStr]
  · have hb : (status == "success") = false := beq_eq_false_iff_ne.mpr hne
    cases content <;> simp [toolResultContentOf, hb, hne, pyStr]

/-- **C3**: for every session, tool_use_id, content and status,
`add_tool_result` followed by `get_messages` appends (and yields as last
message) one user-role message whose sole content block is a `tool_result`
carrying exactly the given tool_use_id and status; the result content is one
structured JSON block when the status is success and the content is a dict or
list, and one stringified text block in every other case. -/
theorem tool_result_message_encoding (s : ChatSession) (tool_use_id : String)
    (content : PyVal) (status : String) :
    (s.add_tool_result tool_use_id content status).get_messages
      = s.get_messages ++
        [{ role := "user",
           content := [.toolResult
             { toolUseId := tool_use_id,
               content :=
                 if status = "success" ∧ pyIsDictOrList content = true then [.json content]
                 else [.text (pyStr content)],
               status := status }] }] := by
  simp [ChatSession.add_tool_result, ChatSession.get_messages, toolResultContentOf_spec]

theorem applySessionOp_appends (s : ChatSession) (op : SessionOp) :
    ∃ m : Message, (applySessionOp s op).messages = s.messages ++ [m] ∧ goodMessage m := by
  cases op with
  | user c => exact ⟨_, rfl, Or.inl rfl, rfl⟩
  | assistant c => exact ⟨_, rfl, Or.inr rfl, rfl⟩
  | tuse tu => exact ⟨_, rfl, Or.inr rfl, rfl⟩
  | tresult id c st => exact ⟨_, rfl, Or.inl rfl, rfl⟩

theorem applySessionOps_good (ops : List SessionOp) :
    ∀ s : ChatSession, (∀ m ∈ s.messages, goodMessage m) →
      ∀ m ∈ (applySessionOps s ops).messages, goodMessage m := by
  induction ops with
  | nil => intro s hs; exact hs
  | cons op rest ih =>
    intro s hs m hm
    rw [show applySessionOps s (op :: rest) = applySessionOps (applySessionOp s op) rest
      from rfl] at hm
    refine ih (applySessionOp s op) ?_ m hm
    intro m2 hm2
    obtain ⟨m0, hm0, hg0⟩ := applySessionOp_appends s op
    rw [hm0] at hm2
    rcases List.mem_append.mp hm2 with h | h
    · exact hs m2 h
    · rw [List.mem_singleton.mp h]; exact hg0

/-- **C10**: every Session append operation appends exactly one message, of
user or assistant role and with exactly one content block, leaving all
previously appended messages unchanged; consequently every session reachable
from the empty one consists solely of single-block user/assistant
messages. -/
theorem session_append_invariant :
    (∀ (s : ChatSession) (op : SessionOp),
      ∃ m : Message, (applySessionOp s op).messages = s.messages ++ [m] ∧ goodMessage m) ∧
    (∀ ops : List SessionOp,
      ∀ m ∈ (applySessionOps ChatSession.empty ops).messages, goodMessage m) :=
  ⟨applySessionOp_appends,
   fun ops => applySessionOps_good ops ChatSession.empty (fun _ hm => nomatch hm)⟩

/-- Witness for C10 at a concrete operation sequence. -/
theorem session_append_invariant_witness :
    goodMessage { role := "user", content := [.text "hi"] } :=
  session_append_invariant.2 [.user "hi"] { role := "user", content := [.text "hi"] }
    (by decide)

/-! ## Knowledge-base claims (C5, C7) -/

/-- **C5**: `replace_corpus` with an empty tool list raises the validation
`ValueError` before any clear, write or ingestion step runs: the object
store is returned unchanged and no ingestion job was started. -/
theorem replace_corpus_empty_rejected (env : KBWriteEnv) (pfx : String)
    (jsonDumps : PyVal → String) (s3 : S3State) :
    write_tools_to_knowledge_base env pfx jsonDumps (.dict [("tools", .list [])]) s3
      = { result := .error (.valueError
            "Invalid tools_data format: \x27tools\x27 list cannot be empty"),
          s3 := s3,
          ingestionStarted := false } := rfl

theorem querySemanticLoop_eq (jsonLoads : String → Option PyVal) :
    ∀ (hits : List RetrievalHit) (results : List PyVal),
      querySemanticLoop jsonLoads hits results
        = results ++ hits.filterMap fun h => jsonLoads h.contentText := by
  intro hits
  induction hits with
  | nil => intro results; simp [querySemanticLoop]
  | cons h rest ih =>
    intro results
    cases hj : jsonLoads h.contentText with
    | none => simp [querySemanticLoop, hj, ih]
    | some v => simp [querySemanticLoop, hj, ih]

/-- **C7**: on a successful retrieval response, `query_semantic` returns
exactly the hits whose payload parses, in retrieval order, with
`total_results` equal to that list's length; a hit whose payload fails to
parse is dropped without failing the whole query. -/
theorem query_parse_failures_dropped (jsonLoads : String → Option PyVal)
    (hits : List RetrievalHit) :
    query_semantic jsonLoads (.ok hits)
      = .ok { tools := hits.filterMap fun h => jsonLoads h.contentText,
              total_results := (hits.filterMap fun h => jsonLoads h.contentText).length } := by
  simp [query_semantic, querySemanticLoop_eq]

/-! ## Ingestion wait (C6) -/

theorem wait_step_nonterminal (polls : Nat → PollOutcome) (jid : String) (fuel i : Nat)
    (h : pollNonTerminal (polls i) = true) :
    wait_for_ingestion_job polls jid (fuel + 1) i
      = wait_for_ingestion_job polls jid fuel (i + 1) := by
  cases hp : polls i with
  | raises e => rw [hp] at h; simp [pollNonTerminal] at h
  | resp status reasons =>
    rw [hp] at h
    simp only [pollNonTerminal, Bool.and_eq_true, Bool.not_eq_true'] at h
    rw [wait_for_ingestion_job, hp]
    simp [h.1.1, h.1.2, h.2]

theorem wait_skip (polls : Nat → PollOutcome) (jid : String) :
    ∀ (n fuel i : Nat), n ≤ fuel →
      (∀ j, j < n → pollNonTerminal (polls (i + j)) = true) →
      wait_for_ingestion_job polls jid fuel i
        = wait_for_ingestion_job polls jid (fuel - n) (i + n) := by
  intro n
  induction n with
  | zero => intro fuel i _ _; simp
  | succ m ih =>
    intro fuel i hle hnt
    obtain ⟨f, rfl⟩ : ∃ f, fuel = f + 1 := ⟨fuel - 1, by omega⟩
    have h0 : pollNonTerminal (polls i) = true := by
      have := hnt 0 (by omega); simpa using this
    rw [wait_step_nonterminal polls jid f i h0]
    have hrest : ∀ j, j < m → pollNonTerminal (polls (i + 1 + j)) = true := by
      intro j hj
      have := hnt (j + 1) (by omega)
      rwa [show i + (j + 1) = i + 1 + j by omega] at this
    rw [ih f (i + 1) (by omega) hrest]
    congr 1
    · omega
    · omega

/-- **C6**: once the first terminal poll is reached, `wait_for_ingestion_job`
returns the status on `COMPLETE`; raises a `KnowledgeBaseError` whose message
carries the host-reported failure reasons on `FAILED`; returns the status
without raising on `STOPPED`; and when no terminal status is observed within
the poll budget it raises a `TimeoutError`, a kind distinct from the `FAILED`
case. -/
theorem ingestion_wait_terminal_behaviour (polls : Nat → PollOutcome) (jid : String)
    (fuel k : Nat) (hk : k < fuel)
    (hpre : ∀ j, j < k → pollNonTerminal (polls j) = true) :
    ((∀ r, polls k = .resp "COMPLETE" r →
        wait_for_ingestion_job polls jid fuel 0 = .ok "COMPLETE") ∧
     (∀ rs, polls k = .resp "FAILED" (some rs) →
        wait_for_ingestion_job polls jid fuel 0
          = .kbError ("Ingestion job " ++ jid ++ " failed: " ++
              pyRepr (.list (rs.map .str)))) ∧
     (∀ r, polls k = .resp "STOPPED" r →
        wait_for_ingestion_job polls jid fuel 0 = .ok "STOPPED")) ∧
    ((∀ j, j < fuel → pollNonTerminal (polls j) = true) →
      wait_for_ingestion_job polls jid fuel 0
        = .timeoutError ("Ingestion job " ++ jid ++ " did not complete within the timeout")) ∧
    (∀ m1 m2 : String, WaitOutcome.timeoutError m1 ≠ WaitOutcome.kbError m2) := by
  have hskip : wait_for_ingestion_job polls jid fuel 0
      = wait_for_ingestion_job polls jid (fuel - k) k := by
    have := wait_skip polls jid k fuel 0 (by omega) (fun j hj => by simpa using hpre j hj)
    simpa using this
  obtain ⟨f, hf⟩ : ∃ f, fuel - k = f + 1 := ⟨fuel - k - 1, by omega⟩
  refine ⟨⟨?_, ?_, ?_⟩, ?_, ?_⟩
  · intro r hp
    rw [hskip, hf, wait_for_ingestion_job, hp]
    simp
  · intro rs hp
    rw [hskip, hf, wait_for_ingestion_job, hp]
    simp
  · intro r hp
    rw [hskip, hf, wait_for_ingestion_job, hp]
    simp
  · intro hall
    have := wait_skip polls jid fuel fuel 0 (by omega) (fun j hj => by simpa using hall j hj)
    simp at this
    rw [this, wait_for_ingestion_job]
  · intro m1 m2 h
    exact WaitOutcome.noConfusion h

/-- Witness for C6: two non-terminal polls then `COMPLETE`, within a budget
of five polls. -/
theorem ingestion_wait_terminal_behaviour_witness :
    wait_for_ingestion_job
        (fun i => if i < 2 then .resp "STARTING" Option.none else .resp "COMPLETE" Option.none)
        "job-7" 5 0
      = .ok "COMPLETE" := by
  have h := ingestion_wait_terminal_behaviour
    (fun i => if i < 2 then .resp "STARTING" Option.none else .resp "COMPLETE" Option.none)
    "job-7" 5 2 (by omega)
    (fun j hj => by interval_cases j <;> decide)
  exact h.1.1 Option.none (by norm_num)

/-! ## Orchestrator claims (C1, C2, C4) -/

theorem genLoop_bounds (env : OrchestratorEnv) (cfg : Option PyVal) :
    ∀ (fuel maxR k r : Nat) (u : Usage) (s : ChatSession) (cs : List ConverseCall),
      maxR - r ≤ fuel → r ≤ maxR →
      (genLoop env cfg maxR k r u s cs).calls.length ≤ cs.length + (maxR - r) + 1 ∧
      (genLoop env cfg maxR k r u s cs).tool_rounds ≤ maxR := by
  intro fuel
  induction fuel with
  | zero =>
    intro maxR k r u s cs hle hr
    have hnlt : ¬ r < maxR := by omega
    unfold genLoop
    simp [hnlt]
    exact hr
  | succ f ih =>
    intro maxR k r u s cs hle hr
    by_cases hlt : r < maxR
    · unfold genLoop
      simp only [hlt, if_true]
      cases hstop : (env.llm k).stopReason == "tool_use" with
      | false =>
        simp [hstop]
        exact hr
      | true =>
        simp only [hstop, if_true]
        have := ih maxR (k + 1) (r + 1)
          (addUsage u (env.llm k).usage)
          (handleToolUse env.jsonLoads (env.host k) (env.llm k).outputMessage
            (appendResponseText s (extractTextContent (env.llm k).outputMessage)))
          (cs ++ [⟨s.get_messages, attachedToolConfig cfg⟩])
          (by omega) (by omega)
        constructor
        · calc _ ≤ (cs ++ [(⟨s.get_messages, attachedToolConfig cfg⟩ : ConverseCall)]).length
                      + (maxR - (r + 1)) + 1 := this.1
            _ ≤ cs.length + (maxR - r) + 1 := by simp; omega
        · exact this.2
    · unfold genLoop
      simp [hlt]
      exact hr

/-- **C1**: for every `max_rounds` and every environment (LLM replies, host
outcomes), one run of `_generate_response_with_tools` makes at most
`max_rounds + 1` Converse calls before returning, and the `tool_rounds`
counter of the returned result never exceeds `max_rounds`. -/
theorem orchestrator_round_bound (env : OrchestratorEnv)
    (tool_config selfToolConfig : Option PyVal) (max_rounds : Nat) (session : ChatSession) :
    (generateResponseWithTools env tool_config selfToolConfig max_rounds session).calls.length
        ≤ max_rounds + 1 ∧
    (generateResponseWithTools env tool_config selfToolConfig max_rounds
        session).tool_rounds ≤ max_rounds := by
  have h := genLoop_bounds env (pyOr tool_config selfToolConfig) max_rounds max_rounds 0 0
    ⟨0, 0, 0⟩ session [] (by omega) (by omega)
  simpa [generateResponseWithTools] using h

theorem genLoop_saturated (env : OrchestratorEnv) (cfg : Option PyVal) :
    ∀ (fuel maxR k r : Nat) (u : Usage) (s : ChatSession) (cs : List ConverseCall),
      maxR - r = fuel → r ≤ maxR →
      (∀ j, j < fuel → (env.llm (k + j)).stopReason = "tool_use") →
      (genLoop env cfg maxR k r u s cs).calls.length = cs.length + fuel + 1 ∧
      (genLoop env cfg maxR k r u s cs).tool_rounds = maxR ∧
      (genLoop env cfg maxR k r u s cs).max_rounds_reached = some true ∧
      (genLoop env cfg maxR k r u s cs).text
        = extractTextContent (env.llm (k + fuel)).outputMessage ∧
      (genLoop env cfg maxR k r u s cs).stop_reason = (env.llm (k + fuel)).stopReason ∧
      ((∀ c ∈ cs, c.toolConfig = attachedToolConfig cfg) →
        ∀ c ∈ (genLoop env cfg maxR k r u s cs).calls,
          c.toolConfig = attachedToolConfig cfg) := by
  intro fuel
  induction fuel with
  | zero =>
    intro maxR k r u s cs hf hr hall
    have hnlt : ¬ r < maxR := by omega
    unfold genLoop
    simp [hnlt]
    refine ⟨by omega, ?_⟩
    intro hcs c hc
    rcases hc with h | h
    · exact hcs c h
    · rw [h]
  | succ f ih =>
    intro maxR k r u s cs hf hr hall
    have hlt : r < maxR := by omega
    have hstop : ((env.llm k).stopReason == "tool_use") = true := by
      have := hall 0 (by omega)
      simp at this
      simp [this]
    unfold genLoop
    simp only [hlt, if_true, hstop]
    have hshift : ∀ j, j < f → (env.llm (k + 1 + j)).stopReason = "tool_use" := by
      intro j hj
      have := hall (j + 1) (by omega)
      rwa [show k + (j + 1) = k + 1 + j by omega] at this
    have hrec := ih maxR (k + 1) (r + 1)
      (addUsage u (env.llm k).usage)
      (handleToolUse env.jsonLoads (env.host k) (env.llm k).outputMessage
        (appendResponseText s (extractTextContent (env.llm k).outputMessage)))
      (cs ++ [⟨s.get_messages, attachedToolConfig cfg⟩])
      (by omega) (by omega) hshift
    have hidx : k + 1 + f = k + (f + 1) := by omega
    refine ⟨?_, hrec.2.1, hrec.2.2.1, ?_, ?_, ?_⟩
    · rw [hrec.1]; simp; omega
    · rw [hrec.2.2.2.1, hidx]
    · rw [hrec.2.2.2.2.1, hidx]
    · intro hcs
      refine hrec.2.2.2.2.2 ?_
      intro c hc
      rcases List.mem_append.mp hc with h | h
      · exact hcs c h
      · rw [List.mem_singleton.mp h]

/-- **C2**: when every reply of the first `max_rounds` Converse calls has
stop reason `tool_use`, the orchestrator makes exactly one additional final
Converse call (so `max_rounds + 1` in total) with the same tool configuration
attached to every request, returns the final response's extracted text, and
the returned result carries `max_rounds_reached = true` (with `tool_rounds`
equal to `max_rounds`). -/
theorem round_limit_final_call (env : OrchestratorEnv)
    (tool_config selfToolConfig : Option PyVal) (max_rounds : Nat) (session : ChatSession)
    (h : ∀ j, j < max_rounds → (env.llm j).stopReason = "tool_use") :
    (generateResponseWithTools env tool_config selfToolConfig max_rounds session).calls.length
        = max_rounds + 1 ∧
    (generateResponseWithTools env tool_config selfToolConfig max_rounds
        session).max_rounds_reached = some true ∧
    (generateResponseWithTools env tool_config selfToolConfig max_rounds
        session).tool_rounds = max_rounds ∧
    (generateResponseWithTools env tool_config selfToolConfig max_rounds session).text
        = extractTextContent (env.llm max_rounds).outputMessage ∧
    (∀ c ∈ (generateResponseWithTools env tool_config selfToolConfig max_rounds session).calls,
        c.toolConfig = attachedToolConfig (pyOr tool_config selfToolConfig)) := by
  have hsat := genLoop_saturated env (pyOr tool_config selfToolConfig) max_rounds max_rounds 0 0
    ⟨0, 0, 0⟩ session [] (by omega) (by omega) (fun j hj => by simpa using h j hj)
  simp only [generateResponseWithTools]
  refine ⟨by simpa using hsat.1, hsat.2.2.1, hsat.2.1, by simpa using hsat.2.2.2.1, ?_⟩
  exact hsat.2.2.2.2.2 (fun c hc => nomatch hc)

/-- Witness for C2: the mocked always-`tool_use` LLM with `max_rounds = 2`
performs three Converse calls in total, marks `max_rounds_reached`, and
returns the (non-empty) text the final call provided. -/
theorem round_limit_final_call_witness :
    (generateResponseWithTools alwaysToolUseEnv (some someToolConfig) Option.none 2
        ChatSession.empty).calls.length = 3 ∧
    (generateResponseWithTools alwaysToolUseEnv (some someToolConfig) Option.none 2
        ChatSession.empty).max_rounds_reached = some true ∧
    (generateResponseWithTools alwaysToolUseEnv (some someToolConfig) Option.none 2
        ChatSession.empty).text = some "calling a tool" := by
  have h := round_limit_final_call alwaysToolUseEnv (some someToolConfig) Option.none 2
    ChatSession.empty (fun j hj => rfl)
  refine ⟨h.1, h.2.1, ?_⟩
  rw [h.2.2.2.1]
  rfl

theorem call_tool_err (name : String) (o : HostOutcome) (h : hostErrs o = true) :
    call_tool true name o = .error (hostErrMsg name o) := by
  cases o with
  | raises e => rfl
  | returns r =>
    have hr : r.isError = true := h
    simp [call_tool, hostErrMsg, hostErrTail, hr]

theorem processToolRequest_err (jl : String → Option PyVal) (o : HostOutcome)
    (t : ToolUseBlock) (s : ChatSession) (h : hostErrs o = true) :
    processToolRequest jl o t s
      = (s.add_tool_use t).add_tool_result t.toolUseId (.str (toolFailedText t o)) "error" := by
  unfold processToolRequest
  rw [call_tool_err t.name o h]
  rfl

theorem add_use_result_mono (s : ChatSession) (t : ToolUseBlock) (id : String) (c : PyVal)
    (st : String) :
    ∃ tail, ((s.add_tool_use t).add_tool_result id c st).messages = s.messages ++ tail :=
  ⟨[{ role := "assistant", content := [.toolUse t] },
    { role := "user",
      content := [.toolResult
        { toolUseId := id, content := toolResultContentOf c st, status := st }] }],
   by simp [ChatSession.add_tool_use, ChatSession.add_tool_result]⟩

theorem processToolRequest_mono (jl : String → Option PyVal) (o : HostOutcome)
    (t : ToolUseBlock) (s : ChatSession) :
    ∃ tail, (processToolRequest jl o t s).messages = s.messages ++ tail := by
  unfold processToolRequest
  dsimp only
  repeat' split
  all_goals exact add_use_result_mono s t _ _ _

theorem handleToolUseAux_mono (jl : String → Option PyVal) (host : Nat → HostOutcome) :
    ∀ (l : List ToolUseBlock) (i : Nat) (s : ChatSession),
      ∃ tail, (handleToolUseAux jl host i l s).messages = s.messages ++ tail := by
  intro l
  induction l with
  | nil => intro i s; exact ⟨[], by simp [handleToolUseAux]⟩
  | cons t0 rest ih =>
    intro i s
    obtain ⟨t1, h1⟩ := processToolRequest_mono jl (host i) t0 s
    obtain ⟨t2, h2⟩ := ih (i + 1) (processToolRequest jl (host i) t0 s)
    refine ⟨t1 ++ t2, ?_⟩
    rw [show handleToolUseAux jl host i (t0 :: rest) s
        = handleToolUseAux jl host (i + 1) rest (processToolRequest jl (host i) t0 s)
      from rfl]
    rw [h2, h1, List.append_assoc]

theorem handleToolUseAux_err_mem (jl : String → Option PyVal) (host : Nat → HostOutcome) :
    ∀ (l : List ToolUseBlock) (i : Nat) (s : ChatSession) (j : Nat) (t : ToolUseBlock),
      l[j]? = some t → hostErrs (host (i + j)) = true →
      errorResultMessage t (host (i + j)) ∈ (handleToolUseAux jl host i l s).messages := by
  intro l
  induction l with
  | nil => intro i s j t hj _; simp at hj
  | cons t0 rest ih =>
    intro i s j t hj herr
    rw [show handleToolUseAux jl host i (t0 :: rest) s
        = handleToolUseAux jl host (i + 1) rest (processToolRequest jl (host i) t0 s)
      from rfl]
    cases j with
    | zero =>
      have ht : t0 = t := by simpa using hj
      subst ht
      have herr0 : hostErrs (host i) = true := by simpa using herr
      have hmem : errorResultMessage t0 (host (i + 0))
          ∈ (processToolRequest jl (host i) t0 s).messages := by
        rw [processToolRequest_err jl (host i) t0 s herr0]
        simp [ChatSession.add_tool_use, ChatSession.add_tool_result, errorResultMessage,
          toolResultContentOf, pyStr]
      obtain ⟨tail, htail⟩ :=
        handleToolUseAux_mono jl host rest (i + 1) (processToolRequest jl (host i) t0 s)
      rw [htail]
      exact List.mem_append.mpr (Or.inl hmem)
    | succ j2 =>
      have hj2 : rest[j2]? = some t := by simpa using hj
      have herr2 : hostErrs (host (i + 1 + j2)) = true := by
        rwa [show i + 1 + j2 = i + (j2 + 1) by omega]
      have := ih (i + 1) (processToolRequest jl (host i) t0 s) j2 t hj2 herr2
      rwa [show i + 1 + j2 = i + (j2 + 1) by omega] at this

theorem genLoop_tool_use_step (env : OrchestratorEnv) (cfg : Option PyVal)
    (maxR k r : Nat) (u : Usage) (s : ChatSession) (cs : List ConverseCall)
    (hlt : r < maxR) (hstop : (env.llm k).stopReason = "tool_use") :
    genLoop env cfg maxR k r u s cs
      = genLoop env cfg maxR (k + 1) (r + 1) (addUsage u (env.llm k).usage)
          (handleToolUse env.jsonLoads (env.host k) (env.llm k).outputMessage
            (appendResponseText s (extractTextContent (env.llm k).outputMessage)))
          (cs ++ [⟨s.get_messages, attachedToolConfig cfg⟩]) := by
  have hb : ((env.llm k).stopReason == "tool_use") = true := by simp [hstop]
  conv_lhs => rw [genLoop]
  simp [hlt, hb]

theorem genLoop_calls_ge (env : OrchestratorEnv) (cfg : Option PyVal) :
    ∀ (fuel maxR k r : Nat) (u : Usage) (s : ChatSession) (cs : List ConverseCall),
      maxR - r ≤ fuel →
      cs.length + 1 ≤ (genLoop env cfg maxR k r u s cs).calls.length := by
  intro fuel
  induction fuel with
  | zero =>
    intro maxR k r u s cs hle
    have hnlt : ¬ r < maxR := by omega
    unfold genLoop
    simp [hnlt]
  | succ f ih =>
    intro maxR k r u s cs hle
    by_cases hlt : r < maxR
    · unfold genLoop
      simp only [hlt, if_true]
      cases hstop : (env.llm k).stopReason == "tool_use" with
      | false => simp [hstop]
      | true =>
        simp only [hstop, if_true]
        have := ih maxR (k + 1) (r + 1)
          (addUsage u (env.llm k).usage)
          (handleToolUse env.jsonLoads (env.host k) (env.llm k).outputMessage
            (appendResponseText s (extractTextContent (env.llm k).outputMessage)))
          (cs ++ [⟨s.get_messages, attachedToolConfig cfg⟩]) (by omega)
        simp at this
        omega
    · unfold genLoop
      simp [hlt]

/-- **C4**: when a tool invocation of a round fails (transport raise or
`is_error=true` from the host), `call_tool` raises a tool-invocation error
carrying the tool name, `_handle_tool_use` appends a `status="error"`
tool result for that `tool_use_id` to the session, and the round loop does
not abort: it proceeds to the next Converse call. -/
theorem tool_error_does_not_abort (env : OrchestratorEnv) (cfg : Option PyVal)
    (maxR k r : Nat) (u : Usage) (s : ChatSession) (cs : List ConverseCall)
    (hlt : r < maxR) (hstop : (env.llm k).stopReason = "tool_use")
    (j : Nat) (t : ToolUseBlock)
    (hreq : (toolRequestsOf (env.llm k).outputMessage)[j]? = some t)
    (herr : hostErrs (env.host k j) = true) :
    call_tool true t.name (env.host k j)
      = .error ("Failed to call tool " ++ t.name ++ ": " ++ hostErrTail t.name (env.host k j)) ∧
    errorResultMessage t (env.host k j)
      ∈ (handleToolUse env.jsonLoads (env.host k) (env.llm k).outputMessage
          (appendResponseText s (extractTextContent (env.llm k).outputMessage))).messages ∧
    genLoop env cfg maxR k r u s cs
      = genLoop env cfg maxR (k + 1) (r + 1) (addUsage u (env.llm k).usage)
          (handleToolUse env.jsonLoads (env.host k) (env.llm k).outputMessage
            (appendResponseText s (extractTextContent (env.llm k).outputMessage)))
          (cs ++ [⟨s.get_messages, attachedToolConfig cfg⟩]) ∧
    cs.length + 2 ≤ (genLoop env cfg maxR k r u s cs).calls.length := by
  refine ⟨call_tool_err t.name (env.host k j) herr, ?_, ?_, ?_⟩
  · have := handleToolUseAux_err_mem env.jsonLoads (env.host k)
      (toolRequestsOf (env.llm k).outputMessage) 0
      (appendResponseText s (extractTextContent (env.llm k).outputMessage)) j t
      (by simpa using hreq) (by simpa using herr)
    simpa [handleToolUse] using this
  · exact genLoop_tool_use_step env cfg maxR k r u s cs hlt hstop
  · rw [genLoop_tool_use_step env cfg maxR k r u s cs hlt hstop]
    have := genLoop_calls_ge env cfg (maxR - (r + 1)) maxR (k + 1) (r + 1)
      (addUsage u (env.llm k).usage)
      (handleToolUse env.jsonLoads (env.host k) (env.llm k).outputMessage
        (appendResponseText s (extractTextContent (env.llm k).outputMessage)))
      (cs ++ [⟨s.get_messages, attachedToolConfig cfg⟩]) (by omega)
    simp at this
    omega

/-- Witness for C4: a host reporting `is_error=true` on the one tool request
of round 0 still lets the run reach a second Converse call. -/
theorem tool_error_does_not_abort_witness :
    2 ≤ (genLoop erroringHostEnv Option.none 2 0 0 ⟨0, 0, 0⟩ ChatSession.empty []).calls.length := by
  have h := tool_error_does_not_abort erroringHostEnv Option.none 2 0 0 ⟨0, 0, 0⟩
    ChatSession.empty [] (by omega) rfl 0 c4Tool (by decide) rfl
  simpa using h.2.2.2

/-! ## Corpus replace and round-trip (C8, C9) -/

theorem strStarts_append (p t : List Char) : strStarts p (p ++ t) = true := by
  induction p with
  | nil => rfl
  | cons c rest ih => simp [strStarts, ih]

theorem keyUnder_append (pfx n : String) : keyUnder pfx (pfx ++ n) = true := by
  unfold keyUnder
  rw [String.data_append]
  exact strStarts_append _ _

theorem clear_no_keys_under (pfx : String) (s3 : S3State) :
    ∀ kv ∈ clear_knowledge_base_chunks pfx s3, keyUnder pfx kv.1 = false := by
  intro kv h
  unfold clear_knowledge_base_chunks at h
  have := (List.mem_filter.mp h).2
  simpa using this

theorem filter_eq_nil_of_all_false {α : Type} (p : α → Bool) :
    ∀ l : List α, (∀ x ∈ l, p x = false) → l.filter p = [] := by
  intro l
  induction l with
  | nil => intro _; rfl
  | cons a rest ih =>
    intro h
    have ha := h a (by simp)
    simp [List.filter_cons, ha, ih (fun x hx => h x (by simp [hx]))]

theorem bodiesUnder_replace (pfx tempName : String) (body : S3Body) (s3 : S3State) :
    bodiesUnder pfx (upload_to_s3 pfx tempName body (clear_knowledge_base_chunks pfx s3))
      = [body] := by
  unfold bodiesUnder upload_to_s3 s3Put
  rw [List.filter_append]
  have h1 : ((clear_knowledge_base_chunks pfx s3).filter
        (fun kv => !(kv.1 == pfx ++ tempName))).filter (fun kv => keyUnder pfx kv.1) = [] := by
    refine filter_eq_nil_of_all_false _ _ ?_
    intro kv hkv
    exact clear_no_keys_under pfx s3 kv (List.mem_of_mem_filter hkv)
  rw [h1]
  simp [keyUnder_append]

theorem write_tools_s3_state (env : KBWriteEnv) (pfx : String) (jsonDumps : PyVal → String)
    (tools : List PyVal) (hne : tools ≠ []) (s3 : S3State) :
    (write_tools_to_knowledge_base env pfx jsonDumps (.dict [("tools", .list tools)]) s3).s3
      = upload_to_s3 pfx env.tempName (create_temp_jsonl_records jsonDumps tools)
          (clear_knowledge_base_chunks pfx s3) := by
  have htr : pyTruthy (.list tools) = true := by
    simp [pyTruthy, List.isEmpty_iff]
    exact hne
  unfold write_tools_to_knowledge_base
  simp only [dictGet, List.find?_cons, beq_self_eq_true, Option.map_some, htr, Bool.not_true,
    Bool.false_eq_true, if_false]
  cases hw : wait_for_ingestion_job env.polls env.job_id env.maxPolls 0 with
  | ok st => simp [hw, htr]
  | kbError m => simp [hw, htr]
  | timeoutError m => simp [hw, htr]

/-- **C9**: for every non-empty tool list, running `replace_corpus` twice in
a row with the same list leaves the corpus content-equal to the state after
a single call: the store holds, under the corpus location, exactly one
object carrying exactly the JSONL records of those tools — no duplicate or
stale leftover records. -/
theorem replace_corpus_idempotent (env1 env2 : KBWriteEnv) (pfx : String)
    (jsonDumps : PyVal → String) (tools : List PyVal) (s3 : S3State) (hne : tools ≠ []) :
    bodiesUnder pfx
        (write_tools_to_knowledge_base env2 pfx jsonDumps (.dict [("tools", .list tools)])
          (write_tools_to_knowledge_base env1 pfx jsonDumps (.dict [("tools", .list tools)])
            s3).s3).s3
      = bodiesUnder pfx
          (write_tools_to_knowledge_base env1 pfx jsonDumps (.dict [("tools", .list tools)])
            s3).s3 ∧
    bodiesUnder pfx
        (write_tools_to_knowledge_base env1 pfx jsonDumps (.dict [("tools", .list tools)])
          s3).s3
      = [create_temp_jsonl_records jsonDumps tools] := by
  rw [write_tools_s3_state env1 pfx jsonDumps tools hne s3]
  rw [write_tools_s3_state env2 pfx jsonDumps tools hne _]
  rw [bodiesUnder_replace, bodiesUnder_replace]
  exact ⟨rfl, rfl⟩

/-- Witness for C9 at a concrete two-descriptor corpus. -/
theorem replace_corpus_idempotent_witness :
    bodiesUnder "kb-data/"
        (write_tools_to_knowledge_base completeIngestionEnv2 "kb-data/" nameDumps
          (.dict [("tools", .list twoTools)])
          (write_tools_to_knowledge_base completeIngestionEnv "kb-data/" nameDumps
            (.dict [("tools", .list twoTools)]) []).s3).s3
      = bodiesUnder "kb-data/"
          (write_tools_to_knowledge_base completeIngestionEnv "kb-data/" nameDumps
            (.dict [("tools", .list twoTools)]) []).s3 :=
  (replace_corpus_idempotent completeIngestionEnv completeIngestionEnv2 "kb-data/" nameDumps
    twoTools [] (by decide)).1

theorem filterMap_of_eq_some {α : Type} (f : α → Option α) :
    ∀ l : List α, (∀ x ∈ l, f x = some x) → l.filterMap f = l := by
  intro l
  induction l with
  | nil => intro _; rfl
  | cons a rest ih =>
    intro h
    simp [List.filterMap_cons, h a (by simp), ih (fun x hx => h x (by simp [hx]))]

theorem sameNameSet_refl (a : List String) : sameNameSet a a = true := by
  simp [sameNameSet, List.all_eq_true]

/-- **C8 (amended)**: for every non-empty list of at most 100 tool
descriptors (100 being the `max_results` hard-coded into `queryall`) whose
JSON encoding round-trips, writing them with `replace_corpus` and fetching
via `queryall` immediately after the ingestion job reports `COMPLETE` yields
exactly the written descriptor list — in particular the same set of tool
names. -/
theorem write_then_queryall_roundtrip (env : KBWriteEnv) (pfx : String)
    (jsonDumps : PyVal → String) (jsonLoads : String → Option PyVal)
    (tools : List PyVal) (s3 : S3State)
    (hne : tools ≠ []) (hlen : tools.length ≤ 100)
    (hcodec : ∀ t ∈ tools, jsonLoads (jsonDumps t) = some t)
    (_hcomplete : (write_tools_to_knowledge_base env pfx jsonDumps
        (.dict [("tools", .list tools)]) s3).result
      = .ok ⟨env.job_id, "COMPLETE"⟩) :
    queryallResult jsonLoads pfx
        (write_tools_to_knowledge_base env pfx jsonDumps (.dict [("tools", .list tools)])
          s3).s3
      = .ok ⟨tools, tools.length⟩ ∧
    sameNameSet (namesOf tools) (namesOf tools) = true := by
  refine ⟨?_, sameNameSet_refl _⟩
  rw [write_tools_s3_state env pfx jsonDumps tools hne s3]
  have hidx : indexAfterCompleteIngestion pfx
      (upload_to_s3 pfx env.tempName (create_temp_jsonl_records jsonDumps tools)
        (clear_knowledge_base_chunks pfx s3))
      = create_temp_jsonl_records jsonDumps tools := by
    have : indexAfterCompleteIngestion pfx
        (upload_to_s3 pfx env.tempName (create_temp_jsonl_records jsonDumps tools)
          (clear_knowledge_base_chunks pfx s3))
        = (bodiesUnder pfx
            (upload_to_s3 pfx env.tempName (create_temp_jsonl_records jsonDumps tools)
              (clear_knowledge_base_chunks pfx s3))).flatten := rfl
    rw [this, bodiesUnder_replace]
    simp
  unfold queryallResult
  rw [hidx]
  have htake : (create_temp_jsonl_records jsonDumps tools).take 100
      = create_temp_jsonl_records jsonDumps tools := by
    refine List.take_of_length_le ?_
    simp [create_temp_jsonl_records]
    omega
  unfold retrieveTopK
  rw [htake]
  simp only [query_semantic, querySemanticLoop_eq, List.nil_append]
  unfold create_temp_jsonl_records
  rw [List.filterMap_map, List.filterMap_map]
  rw [show (((fun h : RetrievalHit => jsonLoads h.contentText) ∘ RetrievalHit.mk) ∘ jsonDumps)
      = fun t => jsonLoads (jsonDumps t) from rfl]
  rw [filterMap_of_eq_some _ tools hcodec]

/-- Witness for the amended C8 at a concrete two-descriptor corpus. -/
theorem write_then_queryall_roundtrip_witness :
    queryallResult nameLoads "kb-data/"
        (write_tools_to_knowledge_base completeIngestionEnv "kb-data/" nameDumps
          (.dict [("tools", .list twoTools)]) []).s3
      = .ok ⟨twoTools, twoTools.length⟩ ∧
    sameNameSet (namesOf twoTools) (namesOf twoTools) = true :=
  write_then_queryall_roundtrip completeIngestionEnv "kb-data/" nameDumps nameLoads
    twoTools [] (by decide) (by decide)
    (by intro t ht; fin_cases ht <;> rfl) rfl

set_option maxRecDepth 100000 in
/-- Counterexample to C8 as stated: 101 descriptors with distinct names are
written, the ingestion completes and every record round-trips, yet
`queryall` (top-K capped at `max_results=100`) returns only 100 of them, so
the fetched name set differs from the written one. -/
theorem write_then_queryall_roundtrip_cex :
    (write_tools_to_knowledge_base completeIngestionEnv "kb-data/" nameDumps
        (.dict [("tools", .list manyTools)]) []).result
      = .ok ⟨"job-1", "COMPLETE"⟩ ∧
    (manyTools.all fun t => nameLoads (nameDumps t) == some t) = true ∧
    queryallResult nameLoads "kb-data/"
        (write_tools_to_knowledge_base completeIngestionEnv "kb-data/" nameDumps
          (.dict [("tools", .list manyTools)]) []).s3
      = .ok ⟨manyTools.take 100, 100⟩ ∧
    sameNameSet (namesOf (manyTools.take 100)) (namesOf manyTools) = false := by
  refine ⟨rfl, ?_, rfl, ?_⟩
  · decide
  · decide

end RagMcp
